import Mathlib

/-!
Shallow embedding of `src/script.ts` (BTC-20M-Countdown) and proofs about it.

JavaScript `number` arithmetic on the issuance schedule is modelled with
exact integers: every intermediate value of the embedded functions stays far
below 2^53, where IEEE-754 doubles represent integers exactly and where
comparison, addition, subtraction, multiplication and `Math.ceil` of a
quotient of such integers agree with exact integer arithmetic.  Fractional
block-time averages and timestamps in milliseconds are modelled in `ℚ`.
-/

namespace BTCCountdown

/-- Source `script.ts` line 9: `const TARGET_BTC = 20000000`. -/
def TARGET_BTC : Nat := 20000000

/-- Source `script.ts` line 10: `const TOTAL_BTC_SUPPLY = 21000000`. -/
def TOTAL_BTC_SUPPLY : Nat := 21000000

/-- Source `script.ts` line 11: `const SATS_PER_BTC = 100000000`. -/
def SATS_PER_BTC : Nat := 100000000

/-- Source `script.ts` line 12: `const HALVING_INTERVAL = 210000`. -/
def HALVING_INTERVAL : Nat := 210000

/-- Source `script.ts` line 13: `const INITIAL_SUBSIDY_SATS = 50 * SATS_PER_BTC`. -/
def INITIAL_SUBSIDY_SATS : Nat := 50 * SATS_PER_BTC

/-- Source `script.ts` line 14: `const FIXED_BLOCK_TIME_MS = 10 * 60 * 1000`. -/
def FIXED_BLOCK_TIME_MS : ℚ := 10 * 60 * 1000

/-- Source `script.ts` line 15: `const FALLBACK_BLOCK_TIME_MS = FIXED_BLOCK_TIME_MS`. -/
def FALLBACK_BLOCK_TIME_MS : ℚ := FIXED_BLOCK_TIME_MS

/-- Source `script.ts` line 20: `const TARGET_SATS = TARGET_BTC * SATS_PER_BTC`. -/
def TARGET_SATS : Int := (TARGET_BTC : Int) * (SATS_PER_BTC : Int)

/-- JavaScript `Math.ceil(a / b)` for integer `a` and positive integer `b` (exact for the
magnitudes the script handles, which are far below 2^53). `/` is Euclidean
division, which for a positive divisor is floor division, and
`⌈a / b⌉ = ⌊(a + b - 1) / b⌋`. -/
def ceilDivInt (a b : Int) : Int := (a + b - 1) / b

/-- The `while` loop of `totalSubsidyAtHeight` (`script.ts` lines 73-82),
with the three mutable locals `remainingBlocks`, `subsidy`, `total` as
arguments.  All three are non-negative throughout, so they are `Nat`. -/
def subsidyLoop (remainingBlocks subsidy total : Nat) : Nat :=
  if h : 0 < remainingBlocks ∧ 0 < subsidy then
    let blocksThisEra := min remainingBlocks HALVING_INTERVAL
    subsidyLoop (remainingBlocks - blocksThisEra) (subsidy / 2)
      (total + blocksThisEra * subsidy)
  else
    total
termination_by subsidy
decreasing_by exact Nat.div_lt_self h.2 one_lt_two

/-- Source `script.ts` lines 70-85: total subsidy mined (in satoshis) at a given
block height (`null` height yields 0, negative height yields 0). -/
def totalSubsidyAtHeight : Option Int → Int
  | none => 0
  | some height =>
    if height < 0 then 0
    else (subsidyLoop (height.toNat + 1) INITIAL_SUBSIDY_SATS 0 : Int)

/-- The `while` loop of `blockHeightForSupply` (`script.ts` lines 93-104),
with the mutable locals `subsidy`, `remaining`, `blocks` as arguments.
`remaining` is the caller-supplied target and may be any integer. -/
def bhLoop (subsidy : Nat) (remaining : Int) (blocks : Nat) : Option Int :=
  if h : 0 < subsidy then
    let eraSupply : Int := (subsidy : Int) * (HALVING_INTERVAL : Int)
    if eraSupply < remaining then
      bhLoop (subsidy / 2) (remaining - eraSupply) (blocks + HALVING_INTERVAL)
    else
      some ((blocks : Int) + ceilDivInt remaining (subsidy : Int) - 1)
  else
    none
termination_by subsidy
decreasing_by exact Nat.div_lt_self h one_lt_two

/-- Source `script.ts` lines 88-107: first block height where total subsidy ≥ target
(in satoshis), or `null` when the schedule runs out first. -/
def blockHeightForSupply (targetSats : Int) : Option Int :=
  bhLoop INITIAL_SUBSIDY_SATS targetSats 0

/-- Source `script.ts` lines 21-25: the startup binding of `TARGET_BLOCK_HEIGHT`
(the script throws when the solver returns `null`; `getD 0` is the arbitrary
value of that dead branch, see `TARGET_BLOCK_eq`). -/
def TARGET_BLOCK : Option Int := blockHeightForSupply TARGET_SATS

def TARGET_BLOCK_HEIGHT : Int := TARGET_BLOCK.getD 0

/-- Total finite issuance of the era schedule starting from a given
per-block subsidy: `Σ HALVING_INTERVAL * subsidyᵢ` over all halving eras. -/
def totalSupply (subsidy : Nat) : Nat :=
  if 0 < subsidy then HALVING_INTERVAL * subsidy + totalSupply (subsidy / 2)
  else 0
termination_by subsidy
decreasing_by rename_i h; exact Nat.div_lt_self h one_lt_two

-- ## Unfolding lemmas for the well-founded loops

theorem subsidyLoop_eq (remainingBlocks subsidy total : Nat) :
    subsidyLoop remainingBlocks subsidy total =
      if 0 < remainingBlocks ∧ 0 < subsidy then
        subsidyLoop (remainingBlocks - min remainingBlocks HALVING_INTERVAL)
          (subsidy / 2)
          (total + min remainingBlocks HALVING_INTERVAL * subsidy)
      else total := by
  rw [subsidyLoop]
  split <;> rfl

theorem bhLoop_eq (subsidy : Nat) (remaining : Int) (blocks : Nat) :
    bhLoop subsidy remaining blocks =
      if 0 < subsidy then
        if (subsidy : Int) * (HALVING_INTERVAL : Int) < remaining then
          bhLoop (subsidy / 2)
            (remaining - (subsidy : Int) * (HALVING_INTERVAL : Int))
            (blocks + HALVING_INTERVAL)
        else
          some ((blocks : Int) + ceilDivInt remaining (subsidy : Int) - 1)
      else none := by
  rw [bhLoop]
  split <;> rfl

theorem totalSupply_eq (subsidy : Nat) :
    totalSupply subsidy =
      if 0 < subsidy then HALVING_INTERVAL * subsidy + totalSupply (subsidy / 2)
      else 0 := by
  rw [totalSupply]

-- ## Data model of the feed coordinator (`script.ts` lines 1-33, 109-194)

/-- Source `script.ts` lines 1-4: a feed record. -/
structure Block where
  height : Int
  timestamp : Int
deriving DecidableEq, Repr

/-- Source `script.ts` line 6: `type EstimateMode = 'average' | 'fixed'`. -/
inductive EstimateMode where
  | average
  | fixed
deriving DecidableEq, Repr

/-- The mutable module-level state of `script.ts` lines 28-33 that the
poll paths read and write (`countdownInterval` is scheduling glue and
carries no estimate information). -/
structure AppState where
  currentBlock : Option Int
  avgBlockTimeMs : ℚ
  lastBlockTimeMs : Option ℚ
  estimatedTargetTimeMs : Option ℚ
  estimateMode : EstimateMode
deriving DecidableEq, Repr

/-- The initial values of the state variables (`script.ts` lines 28-33). -/
def initialState : AppState :=
  { currentBlock := none
    avgBlockTimeMs := FALLBACK_BLOCK_TIME_MS
    lastBlockTimeMs := none
    estimatedTargetTimeMs := none
    estimateMode := EstimateMode.average }

/-- One poll cycle's outcome: the state left behind, the boolean the poll
function returned, and whether the cycle put the `error` class on the
current-block element (`script.ts` lines 190-191). -/
structure PollResult where
  state : AppState
  ok : Bool
  counterErrorFlagged : Bool
deriving DecidableEq, Repr

/-- Model of `[...blocks].sort((a, b) => b.height - a.height)` (`script.ts` line 147):
a stable sort into descending height order, modelled by stable insertion. -/
def insertDesc (x : Block) : List Block → List Block
  | [] => [x]
  | y :: ys => if y.height < x.height then x :: y :: ys else y :: insertDesc x ys

def sortDesc : List Block → List Block
  | [] => []
  | x :: xs => insertDesc x (sortDesc xs)

/-- Source `script.ts` lines 109-124: average delta (milliseconds) over the adjacent
pairs of the window whose timestamp delta is strictly positive; `null` when
the window has fewer than 2 entries or no such pair exists. -/
def calculateAverageBlockTimeMs (blocks : List Block) : Option ℚ :=
  if blocks.length < 2 then none
  else
    let deltas := (blocks.zip blocks.tail).map
      (fun p => p.1.timestamp - p.2.timestamp)
    let valid := deltas.filter (fun d => 0 < d)
    let totalSeconds : Int := valid.sum
    let samples : Nat := valid.length
    if samples = 0 then none
    else some ((totalSeconds : ℚ) / (samples : ℚ) * 1000)

/-- Source `script.ts` lines 126-128. -/
def getActiveBlockTimeMs (s : AppState) : ℚ :=
  if s.estimateMode = EstimateMode.fixed then FIXED_BLOCK_TIME_MS
  else s.avgBlockTimeMs

/-- Source `script.ts` lines 130-133: writes `estimatedTargetTimeMs` unless an
argument is `null`. -/
def updateEstimatedTargetTime (s : AppState) (blocksLeft : Option Int)
    (anchorTimeMs : Option ℚ) : AppState :=
  match anchorTimeMs, blocksLeft with
  | some a, some bl =>
    { s with estimatedTargetTimeMs := some (a + (bl : ℚ) * getActiveBlockTimeMs s) }
  | _, _ => s

/-- Source `script.ts` lines 136-163: the body of the `try` block of
`fetchBlockData`, given a successful fetch whose parsed payload is
`blocks`.  Returns `none` when the payload is an empty array, in which case
the code throws and control passes to the fallback path.  The truthiness
test `if (averageMs)` rejects `null` and `0`. -/
def fetchBlockDataOk (s : AppState) (blocks : List Block) : Option PollResult :=
  match sortDesc blocks with
  | [] => none
  | tipBlock :: rest =>
    let sortedBlocks := tipBlock :: rest
    let nextHeight := tipBlock.height
    let s1 : AppState := { s with currentBlock := some nextHeight }
    let s2 : AppState :=
      match calculateAverageBlockTimeMs sortedBlocks with
      | some averageMs =>
        if averageMs = 0 then s1 else { s1 with avgBlockTimeMs := averageMs }
      | none => s1
    let blockTimeMs : ℚ := (tipBlock.timestamp : ℚ) * 1000
    if s.currentBlock ≠ some nextHeight ∨ s2.estimatedTargetTimeMs = none
        ∨ s2.lastBlockTimeMs ≠ some blockTimeMs then
      let s3 : AppState := { s2 with lastBlockTimeMs := some blockTimeMs }
      let s4 := updateEstimatedTargetTime s3
        (some (max 0 (TARGET_BLOCK_HEIGHT - nextHeight))) (some blockTimeMs)
      some { state := s4, ok := true, counterErrorFlagged := false }
    else
      some { state := s2, ok := true, counterErrorFlagged := false }

/-- Source `script.ts` lines 170-187: the body of the `try` block of
`fetchBlockHeightFallback`, given a successful fetch reporting `height`,
taken at wall-clock time `nowMs` (`Date.now()`). -/
def fetchBlockHeightFallbackOk (s : AppState) (height : Int) (nowMs : ℚ) :
    PollResult :=
  let s1 : AppState := { s with currentBlock := some height }
  if s.currentBlock ≠ some height ∨ s1.estimatedTargetTimeMs = none then
    let s2 : AppState := { s1 with lastBlockTimeMs := some nowMs }
    let s3 := updateEstimatedTargetTime s2
      (some (max 0 (TARGET_BLOCK_HEIGHT - height))) (some nowMs)
    { state := s3, ok := true, counterErrorFlagged := false }
  else
    { state := s1, ok := true, counterErrorFlagged := false }

/-- Source `script.ts` lines 188-193: the `catch` block of
`fetchBlockHeightFallback`, reached when both feeds failed: no state
variable is written, the current-block element is flagged with the `error`
class, and the poll returns `false`. -/
def fetchBlockHeightFallbackFail (s : AppState) : PollResult :=
  { state := s, ok := false, counterErrorFlagged := true }

/-- Source `script.ts` lines 340-346: the estimate-mode toggle handler. -/
def onEstimateModeChange (s : AppState) (checked : Bool) : AppState :=
  let s1 : AppState :=
    { s with estimateMode := if checked then EstimateMode.average else EstimateMode.fixed }
  match s1.currentBlock, s1.lastBlockTimeMs with
  | some cb, some _ =>
    updateEstimatedTargetTime s1 (some (max 0 (TARGET_BLOCK_HEIGHT - cb)))
      s1.lastBlockTimeMs
  | _, _ => s1

-- ## Concrete evaluation of the startup target computation

theorem blockHeightForSupply_target_eval :
    blockHeightForSupply (20000000 * 100000000) = some 939999 := by
  simp [blockHeightForSupply, bhLoop_eq, ceilDivInt, HALVING_INTERVAL,
    INITIAL_SUBSIDY_SATS, SATS_PER_BTC]

theorem TARGET_BLOCK_eq : TARGET_BLOCK = some 939999 := by
  have h : TARGET_SATS = 20000000 * 100000000 := by
    simp [TARGET_SATS, TARGET_BTC, SATS_PER_BTC]
  rw [TARGET_BLOCK, h, blockHeightForSupply_target_eval]

theorem TARGET_BLOCK_HEIGHT_eq : TARGET_BLOCK_HEIGHT = 939999 := by
  rw [TARGET_BLOCK_HEIGHT, TARGET_BLOCK_eq, Option.getD_some]

-- ## Claim C1

/-- C1 counterexample: the target-threshold solver applied to the threshold
20,000,000×10^8 does NOT return 6,929,999 (it returns 939,999), so the
claim is false as stated. -/
theorem C1_counterexample :
    ¬ blockHeightForSupply (20000000 * 100000000) = some 6929999 := by
  rw [blockHeightForSupply_target_eval]
  decide

/-- C1 (amended): with starting per-increment amount 50×10^8 and era length
210000, `blockHeightForSupply (20000000 * 100000000) = some 939999`, and
939999 is the value the startup code binds to `TARGET_BLOCK_HEIGHT`. -/
theorem C1_target_height :
    blockHeightForSupply (20000000 * 100000000) = some 939999 ∧
      TARGET_BLOCK_HEIGHT = 939999 :=
  ⟨blockHeightForSupply_target_eval, TARGET_BLOCK_HEIGHT_eq⟩

-- ## Claim C9

/-- C9: for the threshold 0 the solver returns −1, a value outside the
counter domain (it is negative), and `totalSubsidyAtHeight (-1) = 0 ≥ 0`,
consistent with the issued-upon-completion convention. -/
theorem C9_zero_threshold :
    blockHeightForSupply 0 = some (-1) ∧ (-1 : Int) < 0 ∧
      totalSubsidyAtHeight (some (-1)) = 0 := by
  refine ⟨?_, by decide, by simp [totalSubsidyAtHeight]⟩
  simp [blockHeightForSupply, bhLoop_eq, ceilDivInt, HALVING_INTERVAL,
    INITIAL_SUBSIDY_SATS, SATS_PER_BTC]

-- ## Claim C8

/-- C8: projecting with zero remaining increments is the identity on the
anchor: `updateEstimatedTargetTime` with `blocksLeft = 0` sets the projected
completion instant exactly to the anchor, whatever the active rate and rate
mode stored in the state are. -/
theorem C8_zero_blocks_projection (s : AppState) (anchor : ℚ) :
    (updateEstimatedTargetTime s (some 0) (some anchor)).estimatedTargetTimeMs
      = some anchor := by
  simp [updateEstimatedTargetTime]

-- ## Claim C7

/-- C7: on total feed failure (primary and fallback both failed) the poll
reports failure, flags the counter-value error indicator, and every field of
the estimate state retains its previous value. -/
theorem C7_total_failure (s : AppState) :
    (fetchBlockHeightFallbackFail s).state.currentBlock = s.currentBlock ∧
    (fetchBlockHeightFallbackFail s).state.avgBlockTimeMs = s.avgBlockTimeMs ∧
    (fetchBlockHeightFallbackFail s).state.lastBlockTimeMs = s.lastBlockTimeMs ∧
    (fetchBlockHeightFallbackFail s).state.estimatedTargetTimeMs
      = s.estimatedTargetTimeMs ∧
    (fetchBlockHeightFallbackFail s).ok = false ∧
    (fetchBlockHeightFallbackFail s).counterErrorFlagged = true :=
  ⟨rfl, rfl, rfl, rfl, rfl, rfl⟩

-- ## Claim C5

/-- C5: on the fallback path with a counter value different from the stored
one, the anchor becomes the wall-clock "now", the active rate is left
exactly as it was, and the projected completion instant is recomputed from
that new anchor and the retained rate. -/
theorem C5_fallback_new_height (s : AppState) (height : Int) (nowMs : ℚ)
    (hnew : s.currentBlock ≠ some height) :
    (fetchBlockHeightFallbackOk s height nowMs).state.lastBlockTimeMs
        = some nowMs ∧
    (fetchBlockHeightFallbackOk s height nowMs).state.avgBlockTimeMs
        = s.avgBlockTimeMs ∧
    (fetchBlockHeightFallbackOk s height nowMs).state.estimateMode
        = s.estimateMode ∧
    (fetchBlockHeightFallbackOk s height nowMs).state.estimatedTargetTimeMs
        = some (nowMs
            + ((max 0 (TARGET_BLOCK_HEIGHT - height) : Int) : ℚ)
              * getActiveBlockTimeMs s) ∧
    (fetchBlockHeightFallbackOk s height nowMs).state.currentBlock
        = some height ∧
    (fetchBlockHeightFallbackOk s height nowMs).ok = true := by
  simp only [fetchBlockHeightFallbackOk, updateEstimatedTargetTime,
    getActiveBlockTimeMs, if_pos (Or.inl hnew)]
  simp [getActiveBlockTimeMs]

/-- Witness for C5 at a concrete input. -/
theorem C5_witness :
    initialState.currentBlock ≠ some 123 ∧
    ((fetchBlockHeightFallbackOk initialState 123 555).state.lastBlockTimeMs
        = some 555 ∧
    (fetchBlockHeightFallbackOk initialState 123 555).state.avgBlockTimeMs
        = initialState.avgBlockTimeMs ∧
    (fetchBlockHeightFallbackOk initialState 123 555).state.estimateMode
        = initialState.estimateMode ∧
    (fetchBlockHeightFallbackOk initialState 123 555).state.estimatedTargetTimeMs
        = some (555
            + ((max 0 (TARGET_BLOCK_HEIGHT - 123) : Int) : ℚ)
              * getActiveBlockTimeMs initialState) ∧
    (fetchBlockHeightFallbackOk initialState 123 555).state.currentBlock
        = some 123 ∧
    (fetchBlockHeightFallbackOk initialState 123 555).ok = true) :=
  ⟨by decide, C5_fallback_new_height initialState 123 555 (by decide)⟩

-- ## Rate estimator lemmas

/-- The estimator yields `none` exactly when the window has fewer than two
entries or no adjacent pair has a strictly positive timestamp delta. -/
theorem calcAvg_none_iff (blocks : List Block) :
    calculateAverageBlockTimeMs blocks = none ↔
      blocks.length < 2 ∨
        ∀ p ∈ blocks.zip blocks.tail, p.1.timestamp - p.2.timestamp ≤ 0 := by
  unfold calculateAverageBlockTimeMs
  split
  · rename_i hlen
    simp [hlen]
  · rename_i hlen
    simp only [hlen, false_or]
    split
    · rename_i hz
      simp only [true_iff]
      rw [List.length_eq_zero, List.filter_eq_nil_iff] at hz
      intro p hp
      have := hz _ (List.mem_map_of_mem (fun q => q.1.timestamp - q.2.timestamp) hp)
      simpa using this
    · rename_i hz
      simp only [reduceCtorEq, false_iff, not_forall]
      rw [List.length_eq_zero] at hz
      obtain ⟨d, hd⟩ := List.exists_mem_of_ne_nil _ hz
      have hd2 := List.mem_filter.mp hd
      obtain ⟨p, hp, hpd⟩ := List.mem_map.mp hd2.1
      refine ⟨p, hp, ?_⟩
      have : (0 : Int) < d := by simpa using hd2.2
      omega

/-- Every non-`none` estimator result is strictly positive. -/
theorem calcAvg_pos (blocks : List Block) (a : ℚ)
    (h : calculateAverageBlockTimeMs blocks = some a) : 0 < a := by
  unfold calculateAverageBlockTimeMs at h
  split at h
  · exact absurd h (by simp)
  · dsimp only at h
    split at h
    · exact absurd h (by simp)
    · rename_i hz
      rw [Option.some_inj] at h
      subst h
      set l : List Int := (((blocks.zip blocks.tail).map
          (fun p => p.1.timestamp - p.2.timestamp)).filter (fun d => 0 < d))
        with hl
      have hne : l ≠ [] := by
        intro hcon
        rw [hcon] at hz
        simp at hz
      have hpos : (0 : Int) < l.sum :=
        List.sum_pos l
          (fun d hd => by simpa using (List.mem_filter.mp hd).2) hne
      have h1 : (0 : ℚ) < (l.sum : ℚ) := by exact_mod_cast hpos
      have h2 : (0 : ℚ) < (l.length : ℚ) := by
        have hlp : 0 < l.length := Nat.pos_of_ne_zero hz
        exact_mod_cast hlp
      exact mul_pos (div_pos h1 h2) (by norm_num)

/-- On a `null` estimator result the primary poll leaves `avgBlockTimeMs`
unchanged. -/
theorem fetchBlockDataOk_avg_frame (s : AppState) (blocks : List Block)
    (r : PollResult) (hok : fetchBlockDataOk s blocks = some r)
    (hnone : calculateAverageBlockTimeMs (sortDesc blocks) = none) :
    r.state.avgBlockTimeMs = s.avgBlockTimeMs := by
  unfold fetchBlockDataOk at hok
  cases hsd : sortDesc blocks with
  | nil => rw [hsd] at hok; exact absurd hok (by simp)
  | cons tip rest =>
    rw [hsd] at hok hnone
    simp only [hnone] at hok
    split at hok <;>
      (rw [Option.some_inj] at hok; subst hok;
        simp [updateEstimatedTargetTime])

-- ## Claim C6

/-- C6: the rate estimator yields no result exactly when the window is
unusable (fewer than 2 entries, or no adjacent pair with a strictly
positive timestamp delta); on a `null` result the primary poll leaves
`avgBlockTimeMs` at its prior value, whose initial value is the fixed
nominal rate. -/
theorem C6_estimator_null :
    (∀ blocks : List Block,
      calculateAverageBlockTimeMs blocks = none ↔
        blocks.length < 2 ∨
          ∀ p ∈ blocks.zip blocks.tail, p.1.timestamp - p.2.timestamp ≤ 0) ∧
    (∀ (s : AppState) (blocks : List Block) (r : PollResult),
      fetchBlockDataOk s blocks = some r →
      calculateAverageBlockTimeMs (sortDesc blocks) = none →
      r.state.avgBlockTimeMs = s.avgBlockTimeMs) ∧
    initialState.avgBlockTimeMs = FALLBACK_BLOCK_TIME_MS :=
  ⟨calcAvg_none_iff, fetchBlockDataOk_avg_frame, rfl⟩

/-- Concrete single-record window used to witness C6. -/
def C6_blocks : List Block := [⟨100, 1000⟩]

/-- The poll result the primary path produces from `initialState` on
`C6_blocks` (single record: the estimator yields `none`, the anchor and the
projection are set from the tip). -/
def C6_result : PollResult :=
  { state :=
      { currentBlock := some 100
        avgBlockTimeMs := 600000
        lastBlockTimeMs := some 1000000
        estimatedTargetTimeMs := some 563940400000
        estimateMode := EstimateMode.average }
    ok := true
    counterErrorFlagged := false }

/-- Witness for C6 at a concrete input. -/
theorem C6_witness :
    fetchBlockDataOk initialState C6_blocks = some C6_result ∧
    calculateAverageBlockTimeMs (sortDesc C6_blocks) = none ∧
    C6_result.state.avgBlockTimeMs = initialState.avgBlockTimeMs := by
  have hok : fetchBlockDataOk initialState C6_blocks = some C6_result := by
    simp only [fetchBlockDataOk, C6_blocks, C6_result, sortDesc, insertDesc,
      initialState, calculateAverageBlockTimeMs, updateEstimatedTargetTime,
      getActiveBlockTimeMs, TARGET_BLOCK_HEIGHT_eq, FALLBACK_BLOCK_TIME_MS,
      FIXED_BLOCK_TIME_MS]
    norm_num
  have hnone : calculateAverageBlockTimeMs (sortDesc C6_blocks) = none := by
    simp [calculateAverageBlockTimeMs, sortDesc, insertDesc, C6_blocks]
  exact ⟨hok, hnone, C6_estimator_null.2.1 initialState C6_blocks C6_result hok hnone⟩

theorem mode_average_ne_fixed :
    (EstimateMode.average = EstimateMode.fixed) = False :=
  eq_false (by decide)

-- ## Claim C3

/-- First sample batch: tip block 100 at timestamp 1000, one 500 s delta. -/
def C3_batch1 : List Block := [⟨100, 1000⟩, ⟨99, 500⟩]

/-- Second sample batch: same tip block (same height, same timestamp) but a
different rate sample (one 300 s delta). -/
def C3_batch2 : List Block := [⟨100, 1000⟩, ⟨99, 700⟩]

/-- State after the first successful primary poll on `C3_batch1`. -/
def C3_state1 : AppState :=
  { currentBlock := some 100
    avgBlockTimeMs := 500000
    lastBlockTimeMs := some 1000000
    estimatedTargetTimeMs := some 469950500000
    estimateMode := EstimateMode.average }

/-- State after the second successful primary poll on `C3_batch2`: the rate
is adopted but the projected instant is left untouched. -/
def C3_state2 : AppState :=
  { C3_state1 with avgBlockTimeMs := 300000 }

/-- C3 counterexample: two consecutive successful primary polls report the
same counter value and tip timestamp with a new sample batch whose average
rate differs; the code adopts the new rate but does NOT recompute the
projected completion instant (it keeps the value computed from the old
rate), contradicting recompute-policy clause (d). -/
theorem C3_counterexample :
    fetchBlockDataOk initialState C3_batch1 = some ⟨C3_state1, true, false⟩ ∧
    fetchBlockDataOk C3_state1 C3_batch2 = some ⟨C3_state2, true, false⟩ ∧
    C3_state2.avgBlockTimeMs ≠ C3_state1.avgBlockTimeMs ∧
    C3_state2.currentBlock = C3_state1.currentBlock ∧
    C3_state2.lastBlockTimeMs = C3_state1.lastBlockTimeMs ∧
    C3_state2.estimatedTargetTimeMs = C3_state1.estimatedTargetTimeMs ∧
    C3_state2.estimatedTargetTimeMs ≠
      some (1000000 + ((max 0 (TARGET_BLOCK_HEIGHT - 100) : Int) : ℚ)
        * C3_state2.avgBlockTimeMs) := by
  refine ⟨?_, ?_, by norm_num [C3_state1, C3_state2], rfl, rfl, rfl, ?_⟩
  · simp only [fetchBlockDataOk, C3_batch1, sortDesc, insertDesc, initialState,
      calculateAverageBlockTimeMs, updateEstimatedTargetTime,
      getActiveBlockTimeMs, TARGET_BLOCK_HEIGHT_eq, FALLBACK_BLOCK_TIME_MS,
      FIXED_BLOCK_TIME_MS, C3_state1, mode_average_ne_fixed]
    norm_num [mode_average_ne_fixed]
  · simp only [fetchBlockDataOk, C3_batch2, sortDesc, insertDesc, C3_state1,
      C3_state2, calculateAverageBlockTimeMs, updateEstimatedTargetTime,
      getActiveBlockTimeMs, TARGET_BLOCK_HEIGHT_eq, mode_average_ne_fixed]
    norm_num [mode_average_ne_fixed]
    simp
  · simp only [C3_state1, C3_state2, TARGET_BLOCK_HEIGHT_eq]
    norm_num

/-- C3 (amended): when two consecutive successful primary polls report the
same counter value (same tip block, same tip timestamp) but a sample batch
with a different, non-zero average rate, the new rate is adopted into
`avgBlockTimeMs` but the projected completion instant is NOT recomputed —
the primary path reprojects only on a new height, a missing estimate, or a
changed anchor timestamp — and the counter-derived fields stay unchanged. -/
theorem C3_rate_change_no_reprojection (s : AppState) (blocks : List Block)
    (tip : Block) (rest : List Block) (r : PollResult) (a : ℚ)
    (hsd : sortDesc blocks = tip :: rest)
    (hsame : s.currentBlock = some tip.height)
    (hanchor : s.lastBlockTimeMs = some ((tip.timestamp : ℚ) * 1000))
    (hest : s.estimatedTargetTimeMs ≠ none)
    (havg : calculateAverageBlockTimeMs (tip :: rest) = some a)
    (ha0 : a ≠ 0)
    (hok : fetchBlockDataOk s blocks = some r) :
    r.state.avgBlockTimeMs = a ∧
    r.state.estimatedTargetTimeMs = s.estimatedTargetTimeMs ∧
    r.state.currentBlock = s.currentBlock ∧
    r.state.lastBlockTimeMs = s.lastBlockTimeMs ∧
    r.ok = true := by
  unfold fetchBlockDataOk at hok
  rw [hsd] at hok
  simp only [havg, if_neg ha0] at hok
  rw [if_neg] at hok
  · rw [Option.some_inj] at hok
    subst hok
    simp [hsame]
  · push_neg
    refine ⟨by simp [hsame], by simpa using hest, by simp [hanchor]⟩

/-- Witness for C3's amended theorem at the concrete second poll. -/
theorem C3_witness :
    sortDesc C3_batch2 = ⟨100, 1000⟩ :: [⟨99, 700⟩] ∧
    C3_state1.currentBlock = some (100 : Int) ∧
    C3_state1.lastBlockTimeMs = some (((1000 : Int) : ℚ) * 1000) ∧
    C3_state1.estimatedTargetTimeMs ≠ none ∧
    calculateAverageBlockTimeMs (⟨100, 1000⟩ :: [⟨99, 700⟩]) = some 300000 ∧
    (300000 : ℚ) ≠ 0 ∧
    fetchBlockDataOk C3_state1 C3_batch2 = some ⟨C3_state2, true, false⟩ ∧
    (C3_state2.avgBlockTimeMs = 300000 ∧
      C3_state2.estimatedTargetTimeMs = C3_state1.estimatedTargetTimeMs ∧
      C3_state2.currentBlock = C3_state1.currentBlock ∧
      C3_state2.lastBlockTimeMs = C3_state1.lastBlockTimeMs ∧
      (true : Bool) = true) := by
  have hsd : sortDesc C3_batch2 = ⟨100, 1000⟩ :: [⟨99, 700⟩] := by decide
  have hsame : C3_state1.currentBlock = some (100 : Int) := rfl
  have hanchor : C3_state1.lastBlockTimeMs = some (((1000 : Int) : ℚ) * 1000) := by
    norm_num [C3_state1]
  have hest : C3_state1.estimatedTargetTimeMs ≠ none := by
    simp [C3_state1]
  have havg : calculateAverageBlockTimeMs (⟨100, 1000⟩ :: [⟨99, 700⟩])
      = some 300000 := by
    norm_num [calculateAverageBlockTimeMs]
  have ha0 : (300000 : ℚ) ≠ 0 := by norm_num
  have hok : fetchBlockDataOk C3_state1 C3_batch2 = some ⟨C3_state2, true, false⟩ := by
    simp only [fetchBlockDataOk, C3_batch2, sortDesc, insertDesc, C3_state1,
      C3_state2, calculateAverageBlockTimeMs, updateEstimatedTargetTime,
      getActiveBlockTimeMs, TARGET_BLOCK_HEIGHT_eq, mode_average_ne_fixed]
    norm_num [mode_average_ne_fixed]
    simp
  exact ⟨hsd, hsame, hanchor, hest, havg, ha0, hok,
    C3_rate_change_no_reprojection C3_state1 C3_batch2 ⟨100, 1000⟩ [⟨99, 700⟩]
      ⟨C3_state2, true, false⟩ 300000 hsd hsame hanchor hest havg ha0 hok⟩

-- ## Claim C10

/-- The function `updateEstimatedTargetTime` leaves `avgBlockTimeMs` unchanged. -/
theorem updateEstimatedTargetTime_avg (s : AppState) (bl : Option Int)
    (an : Option ℚ) :
    (updateEstimatedTargetTime s bl an).avgBlockTimeMs = s.avgBlockTimeMs := by
  unfold updateEstimatedTargetTime
  split <;> rfl

/-- The function `updateEstimatedTargetTime` writes only `estimatedTargetTimeMs`. -/
theorem updateEstimatedTargetTime_frame (s : AppState) (bl : Option Int)
    (an : Option ℚ) :
    (updateEstimatedTargetTime s bl an).currentBlock = s.currentBlock ∧
    (updateEstimatedTargetTime s bl an).avgBlockTimeMs = s.avgBlockTimeMs ∧
    (updateEstimatedTargetTime s bl an).lastBlockTimeMs = s.lastBlockTimeMs ∧
    (updateEstimatedTargetTime s bl an).estimateMode = s.estimateMode := by
  unfold updateEstimatedTargetTime
  split <;> exact ⟨rfl, rfl, rfl, rfl⟩

/-- The primary poll preserves strict positivity of the active rate. -/
theorem fetchBlockDataOk_avg_pos (s : AppState) (blocks : List Block)
    (r : PollResult) (hpos : 0 < s.avgBlockTimeMs)
    (hok : fetchBlockDataOk s blocks = some r) :
    0 < r.state.avgBlockTimeMs := by
  unfold fetchBlockDataOk at hok
  cases hsd : sortDesc blocks with
  | nil => rw [hsd] at hok; exact absurd hok (by simp)
  | cons tip rest =>
    rw [hsd] at hok
    cases havg : calculateAverageBlockTimeMs (tip :: rest) with
    | none =>
      simp only [havg] at hok
      split at hok <;>
        (rw [Option.some_inj] at hok; subst hok;
          simpa [updateEstimatedTargetTime_frame] using hpos)
    | some a =>
      have hapos : 0 < a := calcAvg_pos (tip :: rest) a havg
      simp only [havg] at hok
      split at hok <;> split at hok <;>
        (rw [Option.some_inj] at hok; subst hok;
          simp [updateEstimatedTargetTime_frame]) <;>
        first
          | exact hpos
          | exact hapos

/-- C10: the active time-per-increment rate is always strictly positive:
the initial rate is positive, every non-`null` estimator result is
positive, each poll path preserves positivity of `avgBlockTimeMs`, the
mode toggle preserves it, and therefore `getActiveBlockTimeMs` is positive
in both rate modes whenever the stored rate is. -/
theorem C10_rate_positive :
    0 < initialState.avgBlockTimeMs ∧
    (∀ (blocks : List Block) (a : ℚ),
      calculateAverageBlockTimeMs blocks = some a → 0 < a) ∧
    (∀ (s : AppState) (blocks : List Block) (r : PollResult),
      0 < s.avgBlockTimeMs → fetchBlockDataOk s blocks = some r →
      0 < r.state.avgBlockTimeMs) ∧
    (∀ (s : AppState) (height : Int) (nowMs : ℚ),
      0 < s.avgBlockTimeMs →
      0 < (fetchBlockHeightFallbackOk s height nowMs).state.avgBlockTimeMs) ∧
    (∀ (s : AppState) (checked : Bool),
      0 < s.avgBlockTimeMs →
      0 < (onEstimateModeChange s checked).avgBlockTimeMs) ∧
    (∀ s : AppState, 0 < s.avgBlockTimeMs → 0 < getActiveBlockTimeMs s) := by
  refine ⟨?_, calcAvg_pos, fetchBlockDataOk_avg_pos, ?_, ?_, ?_⟩
  · norm_num [initialState, FALLBACK_BLOCK_TIME_MS, FIXED_BLOCK_TIME_MS]
  · intro s height nowMs hpos
    unfold fetchBlockHeightFallbackOk
    dsimp only
    split <;> simpa [updateEstimatedTargetTime_avg] using hpos
  · intro s checked hpos
    unfold onEstimateModeChange
    dsimp only
    split <;> split <;> simpa [updateEstimatedTargetTime_avg] using hpos
  · intro s hpos
    unfold getActiveBlockTimeMs
    split
    · norm_num [FIXED_BLOCK_TIME_MS]
    · exact hpos

/-- The poll result the primary path produces from `initialState` on the
single-record window `[(200, 2000)]`, used to witness C10. -/
def C10_result : PollResult :=
  { state :=
      { currentBlock := some 200
        avgBlockTimeMs := 600000
        lastBlockTimeMs := some 2000000
        estimatedTargetTimeMs := some 563881400000
        estimateMode := EstimateMode.average }
    ok := true
    counterErrorFlagged := false }

/-- Witness for C10 at concrete inputs. -/
theorem C10_witness :
    0 < initialState.avgBlockTimeMs ∧
    (calculateAverageBlockTimeMs [⟨2, 800⟩, ⟨1, 100⟩] = some 700000 ∧
      (0 : ℚ) < 700000) ∧
    (fetchBlockDataOk initialState [⟨200, 2000⟩] = some C10_result ∧
      0 < C10_result.state.avgBlockTimeMs) ∧
    0 < (fetchBlockHeightFallbackOk initialState 7 42).state.avgBlockTimeMs ∧
    0 < (onEstimateModeChange initialState false).avgBlockTimeMs ∧
    0 < getActiveBlockTimeMs initialState := by
  have h0 : 0 < initialState.avgBlockTimeMs := C10_rate_positive.1
  have havg : calculateAverageBlockTimeMs [⟨2, 800⟩, ⟨1, 100⟩] = some 700000 := by
    norm_num [calculateAverageBlockTimeMs]
  have hok : fetchBlockDataOk initialState [⟨200, 2000⟩] = some C10_result := by
    simp only [fetchBlockDataOk, sortDesc, insertDesc, initialState, C10_result,
      calculateAverageBlockTimeMs, updateEstimatedTargetTime,
      getActiveBlockTimeMs, TARGET_BLOCK_HEIGHT_eq, FALLBACK_BLOCK_TIME_MS,
      FIXED_BLOCK_TIME_MS, mode_average_ne_fixed]
    norm_num [mode_average_ne_fixed]
  exact ⟨h0, ⟨havg, C10_rate_positive.2.1 [⟨2, 800⟩, ⟨1, 100⟩] 700000 havg⟩,
    ⟨hok, C10_rate_positive.2.2.1 initialState [⟨200, 2000⟩] C10_result h0 hok⟩,
    C10_rate_positive.2.2.2.1 initialState 7 42 h0,
    C10_rate_positive.2.2.2.2.1 initialState false h0,
    C10_rate_positive.2.2.2.2.2 initialState h0⟩

-- ## Issuance model: loop lemmas and the closed form

theorem HALVING_INTERVAL_pos : 0 < HALVING_INTERVAL := by
  norm_num [HALVING_INTERVAL]

theorem INITIAL_SUBSIDY_SATS_pos : 0 < INITIAL_SUBSIDY_SATS := by
  norm_num [INITIAL_SUBSIDY_SATS, SATS_PER_BTC]

/-- The accumulator of `subsidyLoop` is additive. -/
theorem subsidyLoop_acc (sub : Nat) :
    ∀ n acc, subsidyLoop n sub acc = acc + subsidyLoop n sub 0 := by
  induction sub using Nat.strong_induction_on with
  | _ sub ih =>
    intro n acc
    rw [subsidyLoop_eq, subsidyLoop_eq n sub 0]
    by_cases h : 0 < n ∧ 0 < sub
    · rw [if_pos h, if_pos h,
        ih (sub / 2) (Nat.div_lt_self h.2 one_lt_two),
        ih (sub / 2) (Nat.div_lt_self h.2 one_lt_two)
          (n - min n HALVING_INTERVAL) (0 + min n HALVING_INTERVAL * sub)]
      omega
    · rw [if_neg h, if_neg h]
      omega

theorem subsidyLoop_zero_rem (sub acc : Nat) : subsidyLoop 0 sub acc = acc := by
  rw [subsidyLoop_eq]
  simp

theorem subsidyLoop_zero_sub (n acc : Nat) : subsidyLoop n 0 acc = acc := by
  rw [subsidyLoop_eq]
  simp

/-- One era consumes the whole window when it fits inside the era. -/
theorem subsidyLoop_small (n sub : Nat) (h1 : 0 < n)
    (h2 : n ≤ HALVING_INTERVAL) (h3 : 0 < sub) :
    subsidyLoop n sub 0 = n * sub := by
  rw [subsidyLoop_eq, if_pos ⟨h1, h3⟩, min_eq_left h2, Nat.sub_self,
    subsidyLoop_zero_rem]
  omega

/-- A window at least one era long splits off a full era. -/
theorem subsidyLoop_large (n sub : Nat) (hL : HALVING_INTERVAL ≤ n)
    (h3 : 0 < sub) :
    subsidyLoop n sub 0 =
      HALVING_INTERVAL * sub
        + subsidyLoop (n - HALVING_INTERVAL) (sub / 2) 0 := by
  have h1 : 0 < n := lt_of_lt_of_le HALVING_INTERVAL_pos hL
  rw [subsidyLoop_eq, if_pos ⟨h1, h3⟩, min_eq_right hL, subsidyLoop_acc]
  omega

theorem subsidyLoop_pos (n sub : Nat) (hn : 0 < n) (hs : 0 < sub) :
    0 < subsidyLoop n sub 0 := by
  rcases le_or_lt n HALVING_INTERVAL with h | h
  · rw [subsidyLoop_small n sub hn h hs]
    exact Nat.mul_pos hn hs
  · rw [subsidyLoop_large n sub h.le hs]
    have := Nat.mul_pos HALVING_INTERVAL_pos hs
    omega

/-- The exact closed-form era summation of the spec: the sum over halving
eras of `min(remaining increments, era length) × era amount`, where the
era amount of era `i` is the starting amount floor-halved `i` times,
i.e. `INITIAL_SUBSIDY_SATS / 2 ^ i`; after 33 halvings the amount is 0, so
the full (infinite) era sum truncates at 33 eras. -/
def closedFormIssuance (n : Nat) : Nat :=
  ∑ i ∈ Finset.range 33,
    min (n - i * HALVING_INTERVAL) HALVING_INTERVAL
      * (INITIAL_SUBSIDY_SATS / 2 ^ i)

/-- The loop `subsidyLoop` computes the era summation, for any starting subsidy that
reaches 0 within `k` halvings. -/
theorem subsidyLoop_closed_form :
    ∀ (k sub : Nat), sub / 2 ^ k = 0 → ∀ n : Nat,
      subsidyLoop n sub 0 =
        ∑ i ∈ Finset.range k,
          min (n - i * HALVING_INTERVAL) HALVING_INTERVAL * (sub / 2 ^ i) := by
  intro k
  induction k with
  | zero =>
    intro sub h n
    simp only [pow_zero, Nat.div_one] at h
    subst h
    rw [subsidyLoop_zero_sub]
    simp
  | succ k ih =>
    intro sub h n
    rcases Nat.eq_zero_or_pos sub with hs | hs
    · subst hs
      rw [subsidyLoop_zero_sub]
      symm
      apply Finset.sum_eq_zero
      intro i _
      simp [Nat.zero_div]
    rcases Nat.eq_zero_or_pos n with hn | hn
    · subst hn
      rw [subsidyLoop_zero_rem]
      symm
      apply Finset.sum_eq_zero
      intro i _
      simp
    have h2 : sub / 2 / 2 ^ k = 0 := by
      rw [Nat.div_div_eq_div_mul, show 2 * 2 ^ k = 2 ^ (k + 1) by ring]
      exact h
    rw [subsidyLoop_eq, if_pos ⟨hn, hs⟩, subsidyLoop_acc,
      show n - min n HALVING_INTERVAL = n - HALVING_INTERVAL by omega,
      ih (sub / 2) h2 (n - HALVING_INTERVAL), Finset.sum_range_succ']
    have hsum : ∀ i ∈ Finset.range k,
        min (n - HALVING_INTERVAL - i * HALVING_INTERVAL) HALVING_INTERVAL
            * (sub / 2 / 2 ^ i)
          = min (n - (i + 1) * HALVING_INTERVAL) HALVING_INTERVAL
            * (sub / 2 ^ (i + 1)) := by
      intro i _
      have ha : n - HALVING_INTERVAL - i * HALVING_INTERVAL
          = n - (i + 1) * HALVING_INTERVAL := by
        rw [Nat.sub_sub]
        congr 1
        ring
      have hb : sub / 2 / 2 ^ i = sub / 2 ^ (i + 1) := by
        rw [Nat.div_div_eq_div_mul, show 2 * 2 ^ i = 2 ^ (i + 1) by ring]
      rw [ha, hb]
    rw [Finset.sum_congr rfl hsum]
    simp only [Nat.zero_mul, Nat.sub_zero, pow_zero, Nat.div_one]
    omega

theorem INITIAL_halves_out : INITIAL_SUBSIDY_SATS / 2 ^ 33 = 0 := by
  norm_num [INITIAL_SUBSIDY_SATS, SATS_PER_BTC]

/-- For a non-negative height the script computes exactly the closed-form
era summation over `height + 1` blocks. -/
theorem totalSubsidyAtHeight_closed_form (h : Int) (hh : 0 ≤ h) :
    totalSubsidyAtHeight (some h) = (closedFormIssuance (h.toNat + 1) : Int) := by
  simp only [totalSubsidyAtHeight]
  rw [if_neg (by omega)]
  have hcf : subsidyLoop (h.toNat + 1) INITIAL_SUBSIDY_SATS 0
      = closedFormIssuance (h.toNat + 1) :=
    subsidyLoop_closed_form 33 INITIAL_SUBSIDY_SATS INITIAL_halves_out (h.toNat + 1)
  rw [hcf]

theorem closedFormIssuance_mono {n1 n2 : Nat} (h : n1 ≤ n2) :
    closedFormIssuance n1 ≤ closedFormIssuance n2 := by
  apply Finset.sum_le_sum
  intro i _
  exact Nat.mul_le_mul
    (min_le_min (Nat.sub_le_sub_right h _) le_rfl) le_rfl

-- ## Claim C4

/-- C4: cumulative issuance is monotone in the height, never negative,
zero for negative heights, and equal to the exact closed-form era
summation. -/
theorem C4_issuance_monotone :
    (∀ h1 h2 : Int, h1 ≤ h2 →
      totalSubsidyAtHeight (some h1) ≤ totalSubsidyAtHeight (some h2)) ∧
    (∀ h : Int, 0 ≤ totalSubsidyAtHeight (some h)) ∧
    (∀ h : Int, h < 0 → totalSubsidyAtHeight (some h) = 0) ∧
    (∀ h : Int, 0 ≤ h →
      totalSubsidyAtHeight (some h) = (closedFormIssuance (h.toNat + 1) : Int)) := by
  have hnonneg : ∀ h : Int, 0 ≤ totalSubsidyAtHeight (some h) := by
    intro h
    simp only [totalSubsidyAtHeight]
    split
    · exact le_rfl
    · exact Int.natCast_nonneg _
  refine ⟨?_, hnonneg, ?_, totalSubsidyAtHeight_closed_form⟩
  · intro h1 h2 hle
    rcases lt_or_le h1 0 with hneg | hpos
    · have : totalSubsidyAtHeight (some h1) = 0 := by
        simp only [totalSubsidyAtHeight]
        rw [if_pos hneg]
      rw [this]
      exact hnonneg h2
    · have hpos2 : (0 : Int) ≤ h2 := le_trans hpos hle
      rw [totalSubsidyAtHeight_closed_form h1 hpos,
        totalSubsidyAtHeight_closed_form h2 hpos2]
      have : h1.toNat + 1 ≤ h2.toNat + 1 := by omega
      exact_mod_cast closedFormIssuance_mono this
  · intro h hneg
    simp only [totalSubsidyAtHeight]
    rw [if_pos hneg]

/-- Witness for C4 at concrete heights. -/
theorem C4_witness :
    ((-5 : Int) ≤ 3 ∧
      totalSubsidyAtHeight (some (-5)) ≤ totalSubsidyAtHeight (some 3)) ∧
    (0 ≤ totalSubsidyAtHeight (some 7)) ∧
    ((-2 : Int) < 0 ∧ totalSubsidyAtHeight (some (-2)) = 0) ∧
    ((0 : Int) ≤ 1 ∧
      totalSubsidyAtHeight (some 1) = (closedFormIssuance ((1 : Int).toNat + 1) : Int)) :=
  ⟨⟨by norm_num, C4_issuance_monotone.1 (-5) 3 (by norm_num)⟩,
    C4_issuance_monotone.2.1 7,
    ⟨by norm_num, C4_issuance_monotone.2.2.1 (-2) (by norm_num)⟩,
    ⟨by norm_num, C4_issuance_monotone.2.2.2 1 (by norm_num)⟩⟩

-- ## Solver lemmas: ceiling division and the accumulator shift

theorem ceilDivInt_spec (a b : Int) (hb : 0 < b) :
    a ≤ b * ceilDivInt a b ∧ b * ceilDivInt a b - b < a := by
  unfold ceilDivInt
  have h1 := Int.ediv_add_emod (a + b - 1) b
  have h2 := Int.emod_nonneg (a + b - 1) (by omega : b ≠ 0)
  have h3 := Int.emod_lt_of_pos (a + b - 1) hb
  omega

theorem ceilDivInt_le (a b m : Int) (hb : 0 < b) (h : a ≤ b * m) :
    ceilDivInt a b ≤ m := by
  have hspec := ceilDivInt_spec a b hb
  have hq : b * ceilDivInt a b < b * (m + 1) := by nlinarith
  have := lt_of_mul_lt_mul_left hq (le_of_lt hb)
  omega

theorem ceilDivInt_nonneg (a b : Int) (hb : 0 < b) (ha : 0 ≤ a) :
    0 ≤ ceilDivInt a b := by
  by_contra hcon
  push_neg at hcon
  have hspec := ceilDivInt_spec a b hb
  nlinarith [hspec.1]

theorem ceilDivInt_mul_self (n s : Int) (hs : 0 < s) :
    ceilDivInt (n * s) s = n := by
  have hspec := ceilDivInt_spec (n * s) s hs
  have h1 : ceilDivInt (n * s) s ≤ n :=
    ceilDivInt_le (n * s) s n hs (le_of_eq (mul_comm n s))
  have h2 : n ≤ ceilDivInt (n * s) s :=
    le_of_mul_le_mul_left (by linarith [hspec.1, mul_comm n s]) hs
  omega

/-- The accumulated `blocks` argument of `bhLoop` is a plain offset on the
returned height. -/
theorem bhLoop_shift (sub : Nat) :
    ∀ (r : Int) (b : Nat),
      bhLoop sub r b = (bhLoop sub r 0).map (fun v => v + (b : Int)) := by
  induction sub using Nat.strong_induction_on with
  | _ sub ih =>
    intro r b
    rw [bhLoop_eq, bhLoop_eq sub r 0]
    by_cases hs : 0 < sub
    · rw [if_pos hs, if_pos hs]
      by_cases hlt : (sub : Int) * (HALVING_INTERVAL : Int) < r
      · rw [if_pos hlt, if_pos hlt,
          ih (sub / 2) (Nat.div_lt_self hs one_lt_two),
          ih (sub / 2) (Nat.div_lt_self hs one_lt_two)
            (r - (sub : Int) * (HALVING_INTERVAL : Int)) (0 + HALVING_INTERVAL),
          Option.map_map]
        have hfun : ((fun v => v + (b : Int))
              ∘ fun v : Int => v + ((0 + HALVING_INTERVAL : Nat) : Int))
            = fun v : Int => v + ((b + HALVING_INTERVAL : Nat) : Int) := by
          funext v
          simp only [Function.comp_apply]
          push_cast
          ring
        rw [hfun]
      · rw [if_neg hlt, if_neg hlt]
        show some ((b : Int) + ceilDivInt r (sub : Int) - 1)
          = some ((((0 : Nat) : Int) + ceilDivInt r (sub : Int) - 1) + (b : Int))
        apply congrArg
        push_cast
        ring
    · rw [if_neg hs, if_neg hs]
      rfl

-- ## First-crossing lemmas

/-- Applying the solver to the issuance at a window of `n` blocks returns a
height at most `n - 1` (the last block of the window). -/
theorem issuance_then_solver_le (sub : Nat) :
    ∀ n : Nat, 0 < sub → 0 < n →
      ∃ v : Int, bhLoop sub ((subsidyLoop n sub 0 : Nat) : Int) 0 = some v ∧
        v ≤ (n : Int) - 1 := by
  induction sub using Nat.strong_induction_on with
  | _ sub ih =>
    intro n hs hn
    have hsi : (0 : Int) < (sub : Int) := by exact_mod_cast hs
    rcases le_or_lt n HALVING_INTERVAL with hsmall | hlarge
    · rw [subsidyLoop_small n sub hn hsmall hs]
      have hns : ((n * sub : Nat) : Int) ≤ (sub : Int) * (HALVING_INTERVAL : Int) := by
        push_cast
        have hni : (n : Int) ≤ (HALVING_INTERVAL : Int) := by exact_mod_cast hsmall
        nlinarith
      rw [bhLoop_eq, if_pos hs, if_neg (not_lt.mpr hns)]
      refine ⟨_, rfl, ?_⟩
      rw [show ((n * sub : Nat) : Int) = (n : Int) * (sub : Int) by push_cast; ring,
        ceilDivInt_mul_self (n : Int) (sub : Int) hsi]
      omega
    · rcases Nat.eq_zero_or_pos (sub / 2) with h2 | h2
      · rw [subsidyLoop_large n sub hlarge.le hs, h2, subsidyLoop_zero_sub]
        have hle : ((HALVING_INTERVAL * sub + 0 : Nat) : Int)
            ≤ (sub : Int) * (HALVING_INTERVAL : Int) := by
          push_cast
          linarith [mul_comm (sub : Int) ((HALVING_INTERVAL : Nat) : Int)]
        rw [bhLoop_eq, if_pos hs, if_neg (not_lt.mpr hle)]
        refine ⟨_, rfl, ?_⟩
        rw [show ((HALVING_INTERVAL * sub + 0 : Nat) : Int)
            = ((HALVING_INTERVAL : Nat) : Int) * (sub : Int) by push_cast; ring,
          ceilDivInt_mul_self _ _ hsi]
        omega
      · rw [subsidyLoop_large n sub hlarge.le hs]
        have hnl : 0 < n - HALVING_INTERVAL := by omega
        have hpos := subsidyLoop_pos (n - HALVING_INTERVAL) (sub / 2) hnl h2
        have hposi : (0 : Int)
            < ((subsidyLoop (n - HALVING_INTERVAL) (sub / 2) 0 : Nat) : Int) := by
          exact_mod_cast hpos
        have hgt : (sub : Int) * (HALVING_INTERVAL : Int)
            < ((HALVING_INTERVAL * sub
                + subsidyLoop (n - HALVING_INTERVAL) (sub / 2) 0 : Nat) : Int) := by
          push_cast
          push_cast at hposi
          nlinarith
        rw [bhLoop_eq, if_pos hs, if_pos hgt]
        have hrem : ((HALVING_INTERVAL * sub
              + subsidyLoop (n - HALVING_INTERVAL) (sub / 2) 0 : Nat) : Int)
            - (sub : Int) * (HALVING_INTERVAL : Int)
            = ((subsidyLoop (n - HALVING_INTERVAL) (sub / 2) 0 : Nat) : Int) := by
          push_cast
          ring
        rw [hrem, bhLoop_shift]
        obtain ⟨v, hv, hle⟩ :=
          ih (sub / 2) (Nat.div_lt_self hs one_lt_two) (n - HALVING_INTERVAL) h2 hnl
        rw [hv]
        exact ⟨v + ((0 + HALVING_INTERVAL : Nat) : Int), rfl, by omega⟩

/-- For a reachable threshold the solver returns a height at which the
cumulative issuance has reached the threshold. -/
theorem solver_then_issuance_ge (sub : Nat) :
    ∀ t : Int, 0 < sub → 0 ≤ t → t ≤ ((totalSupply sub : Nat) : Int) →
      ∃ v : Int, bhLoop sub t 0 = some v ∧ -1 ≤ v ∧
        t ≤ ((subsidyLoop (v + 1).toNat sub 0 : Nat) : Int) := by
  induction sub using Nat.strong_induction_on with
  | _ sub ih =>
    intro t hs ht htot
    have hsi : (0 : Int) < (sub : Int) := by exact_mod_cast hs
    rw [bhLoop_eq, if_pos hs]
    by_cases hlt : (sub : Int) * (HALVING_INTERVAL : Int) < t
    · have h2 : 0 < sub / 2 := by
        by_contra hcon
        push_neg at hcon
        have hz : sub / 2 = 0 := by omega
        rw [totalSupply_eq, if_pos hs, hz, totalSupply_eq, if_neg (by omega)] at htot
        push_cast at htot
        nlinarith
      rw [if_pos hlt, bhLoop_shift]
      have ht' : (0 : Int) ≤ t - (sub : Int) * (HALVING_INTERVAL : Int) := by linarith
      have htot' : t - (sub : Int) * (HALVING_INTERVAL : Int)
          ≤ ((totalSupply (sub / 2) : Nat) : Int) := by
        rw [totalSupply_eq, if_pos hs] at htot
        push_cast at htot
        linarith [mul_comm (sub : Int) ((HALVING_INTERVAL : Nat) : Int)]
      obtain ⟨v, hv, hm1, hC⟩ := ih (sub / 2) (Nat.div_lt_self hs one_lt_two)
        (t - (sub : Int) * (HALVING_INTERVAL : Int)) h2 ht' htot'
      rw [hv]
      refine ⟨v + ((0 + HALVING_INTERVAL : Nat) : Int), rfl, by omega, ?_⟩
      have hton : (v + ((0 + HALVING_INTERVAL : Nat) : Int) + 1).toNat
          = (v + 1).toNat + HALVING_INTERVAL := by omega
      rw [hton,
        subsidyLoop_large ((v + 1).toNat + HALVING_INTERVAL) sub (by omega) hs,
        show (v + 1).toNat + HALVING_INTERVAL - HALVING_INTERVAL = (v + 1).toNat
          by omega]
      push_cast
      linarith [mul_comm (sub : Int) ((HALVING_INTERVAL : Nat) : Int), hC]
    · rw [if_neg hlt]
      push_neg at hlt
      have hq0 : 0 ≤ ceilDivInt t (sub : Int) := ceilDivInt_nonneg t (sub : Int) hsi ht
      refine ⟨_, rfl, by omega, ?_⟩
      rw [show (((0 : Nat) : Int) + ceilDivInt t (sub : Int) - 1 + 1).toNat
          = (ceilDivInt t (sub : Int)).toNat by omega]
      have hspec := ceilDivInt_spec t (sub : Int) hsi
      rcases eq_or_lt_of_le hq0 with hq00 | hqpos
      · rw [← hq00]
        rw [show ((0 : Int)).toNat = 0 from rfl, subsidyLoop_zero_rem]
        have ht0 : t ≤ 0 := by
          have h1 := hspec.1
          rw [← hq00] at h1
          simpa using h1
        simpa using ht0
      · have hqL : ceilDivInt t (sub : Int) ≤ (HALVING_INTERVAL : Int) :=
          ceilDivInt_le t (sub : Int) (HALVING_INTERVAL : Int) hsi hlt
        rw [subsidyLoop_small (ceilDivInt t (sub : Int)).toNat sub
          (by omega) (by omega) hs]
        push_cast
        rw [Int.toNat_of_nonneg hq0]
        linarith [hspec.1, mul_comm (sub : Int) (ceilDivInt t (sub : Int))]

-- ## Claim C2

/-- C2: first-crossing property of the solver/issuance pair.  For every
height `h ≥ 0` the solver applied to the cumulative issuance at `h` returns
a height `≤ h`; and for every reachable threshold `t` (between 0 and the
total finite issuance of the schedule) the solver returns a height whose
cumulative issuance is at least `t`. -/
theorem C2_first_crossing :
    (∀ h : Int, 0 ≤ h → ∃ v : Int,
      blockHeightForSupply (totalSubsidyAtHeight (some h)) = some v ∧ v ≤ h) ∧
    (∀ t : Int, 0 ≤ t → t ≤ ((totalSupply INITIAL_SUBSIDY_SATS : Nat) : Int) →
      ∃ v : Int, blockHeightForSupply t = some v ∧
        t ≤ totalSubsidyAtHeight (some v)) := by
  constructor
  · intro h hh
    have hts : totalSubsidyAtHeight (some h)
        = ((subsidyLoop (h.toNat + 1) INITIAL_SUBSIDY_SATS 0 : Nat) : Int) := by
      simp only [totalSubsidyAtHeight]
      rw [if_neg (by omega)]
    obtain ⟨v, hv, hle⟩ := issuance_then_solver_le INITIAL_SUBSIDY_SATS
      (h.toNat + 1) INITIAL_SUBSIDY_SATS_pos (Nat.succ_pos _)
    refine ⟨v, ?_, by omega⟩
    rw [blockHeightForSupply, hts]
    exact hv
  · intro t ht htot
    obtain ⟨v, hv, hm1, hC⟩ := solver_then_issuance_ge INITIAL_SUBSIDY_SATS
      t INITIAL_SUBSIDY_SATS_pos ht htot
    refine ⟨v, hv, ?_⟩
    rcases lt_or_le v 0 with hvneg | hvpos
    · have hv1 : v = -1 := by omega
      subst hv1
      simp only [totalSubsidyAtHeight]
      rw [if_pos (by omega : (-1 : Int) < 0)]
      have : ((-1 : Int) + 1).toNat = 0 := by omega
      rw [this, subsidyLoop_zero_rem] at hC
      simpa using hC
    · simp only [totalSubsidyAtHeight]
      rw [if_neg (by omega)]
      rw [show (v + 1).toNat = v.toNat + 1 by omega] at hC
      exact hC

/-- Witness for C2 at concrete inputs. -/
theorem C2_witness :
    ((0 : Int) ≤ 2 ∧ ∃ v : Int,
      blockHeightForSupply (totalSubsidyAtHeight (some 2)) = some v ∧ v ≤ 2) ∧
    ((0 : Int) ≤ 5 ∧ (5 : Int) ≤ ((totalSupply INITIAL_SUBSIDY_SATS : Nat) : Int) ∧
      ∃ v : Int, blockHeightForSupply 5 = some v ∧
        5 ≤ totalSubsidyAtHeight (some v)) := by
  have htot : (5 : Int) ≤ ((totalSupply INITIAL_SUBSIDY_SATS : Nat) : Int) := by
    rw [totalSupply_eq, if_pos INITIAL_SUBSIDY_SATS_pos]
    have h5 : 5 ≤ HALVING_INTERVAL * INITIAL_SUBSIDY_SATS := by
      norm_num [HALVING_INTERVAL, INITIAL_SUBSIDY_SATS, SATS_PER_BTC]
    push_cast
    omega
  exact ⟨⟨by norm_num, C2_first_crossing.1 2 (by norm_num)⟩,
    ⟨by norm_num, htot, C2_first_crossing.2 5 (by norm_num) htot⟩⟩

end BTCCountdown
